import Mathlib

/-!
A shallow embedding of the circuit-configuration module of circom-scotia
(src/src/r1cs.rs) together with the shape-validation, instance-assembly and
serialization operations its specification describes.  Pure data is embedded
as Lean structures; fallible Rust code returning anyhow::Result is embedded
as Except with opaque underlying causes modelled as String; the two external
collaborators of CircomConfig::new (WitnessCalculator::new and load_r1cs)
are passed to the embedded constructor as function arguments.
-/

namespace CircomScotia

/-- A filesystem path as this module sees it: the only operation the source
performs on a path is Path::to_str, which yields the path's text form when
the path is representable as text and nothing otherwise. -/
structure Path where
  toStr : Option String
deriving DecidableEq

/-- One R1CS constraint: a triple of sparse linear combinations, each a
sequence of (variable-index, coefficient) pairs (the type alias at
src/src/r1cs.rs line 65). -/
def Constraint (F : Type) : Type :=
  List (Nat × F) × List (Nat × F) × List (Nat × F)

/-- The R1CS shape record (src/src/r1cs.rs lines 35-42). -/
structure R1CS (F : Type) where
  num_pub_in : Nat
  num_pub_out : Nat
  num_inputs : Nat
  num_aux : Nat
  num_variables : Nat
  constraints : List (Constraint F)

/-- A named input for a Circom gadget (src/src/r1cs.rs lines 49-52). -/
structure CircomInput (F : Type) where
  name : String
  value : List F
deriving DecidableEq

variable {F : Type}

/-- The constructor CircomInput::new (src/src/r1cs.rs lines 55-57). -/
def CircomInput.new (name : String) (value : List F) : CircomInput F :=
  { name := name, value := value }

/-- The external witness-computation engine (out of scope for the core, but
its handle is held by the configuration).  Its internal mutable execution
state is abstracted as a log of the computations performed so far, and its
input-to-assignment behaviour as a pure function with opaque failures. -/
structure WitnessCalculator (F : Type) where
  state : List (List (CircomInput F))
  computeFun : List (CircomInput F) → Except String (List F)

/-- Running the engine on a set of named inputs: returns the engine's
result and the engine with its internal execution state advanced. -/
def WitnessCalculator.compute (w : WitnessCalculator F) (inputs : List (CircomInput F)) :
    Except String (List F) × WitnessCalculator F :=
  (w.computeFun inputs, { state := inputs :: w.state, computeFun := w.computeFun })

/-- A Circom circuit instance: constraints plus an optional witness
(src/src/r1cs.rs lines 24-27). -/
structure CircomCircuit (F : Type) where
  r1cs : R1CS F
  witness : Option (List F)

/-- The errors CircomConfig::new surfaces, reconstructed from their uses in
src/src/r1cs.rs: FilenameError is used as a bare value (lines 87-88), hence
carries no data; the other two variants are built with the offending path
string and the wrapped underlying cause (lines 90-99), the cause being
opaque here and modelled as String. -/
inductive ConfigError where
  | FilenameError : ConfigError
  | WitnessCalculatorInstantiationError : String → String → ConfigError
  | LoadR1CSError : String → String → ConfigError
deriving DecidableEq

/-- The circuit configuration (src/src/r1cs.rs lines 72-76).  The Mutex
around the witness calculator is modelled as direct containment; its
blocking behaviour is a concurrency property outside this embedding. -/
structure CircomConfig (F : Type) where
  r1cs : R1CS F
  wtns : WitnessCalculator F
  sanity_check : Bool

/-- CircomConfig::new (src/src/r1cs.rs lines 86-105).  The external
collaborators WitnessCalculator::new and load_r1cs arrive as the function
arguments wcNew and load_r1cs; as in the source, both receive the original
path value, while the error constructors receive the path strings computed
up front.  The chain of matches mirrors the source's fail-fast question-mark
operators in their exact order. -/
def CircomConfig.new (wcNew : Path → Except String (WitnessCalculator F))
    (load_r1cs : Path → Except String (R1CS F))
    (wtns r1cs : Path) : Except ConfigError (CircomConfig F) :=
  match wtns.toStr with
  | none => Except.error ConfigError.FilenameError
  | some path_wtns_string =>
    match r1cs.toStr with
    | none => Except.error ConfigError.FilenameError
    | some path_r1cs_string =>
      match wcNew wtns with
      | Except.error err =>
        Except.error (ConfigError.WitnessCalculatorInstantiationError path_wtns_string err)
      | Except.ok w =>
        match load_r1cs r1cs with
        | Except.error err =>
          Except.error (ConfigError.LoadR1CSError path_r1cs_string err)
        | Except.ok shape =>
          Except.ok { wtns := w, r1cs := shape, sanity_check := false }

/-- Modelled from the spec: the error kinds of the shape-validation
operation, which src/ does not contain; per the spec a failure "reports
which constraint and which index violated the bound" or that the arity
identity num_variables = num_inputs + num_aux fails. -/
inductive ShapeError where
  | ArityMismatch : Nat → Nat → Nat → ShapeError
  | IndexOutOfBounds : Nat → Nat → ShapeError
deriving DecidableEq

/-- Modelled from the spec: the first out-of-range variable index (one not
below n) occurring in a sparse linear combination, if any.  A building
block of the R1CS validate operation missing from src/. -/
def lcBad (n : Nat) : List (Nat × F) → Option Nat
  | [] => none
  | p :: rest => if n ≤ p.1 then some p.1 else lcBad n rest

/-- Modelled from the spec: the first out-of-range variable index referenced
anywhere in a constraint's three linear combinations, if any. -/
def constraintBad (n : Nat) (c : Constraint F) : Option Nat :=
  match lcBad n c.1 with
  | some i => some i
  | none =>
    match lcBad n c.2.1 with
    | some i => some i
    | none => lcBad n c.2.2

/-- Modelled from the spec: the walk over the constraint sequence performed
by validate, carrying the position of the current constraint so that a
failure reports which constraint held the offending index. -/
def constraintsValidate (n : Nat) : Nat → List (Constraint F) → Except ShapeError Unit
  | _, [] => Except.ok ()
  | idx, c :: rest =>
    match constraintBad n c with
    | some i => Except.error (ShapeError.IndexOutOfBounds idx i)
    | none => constraintsValidate n (idx + 1) rest

/-- Modelled from the spec: the validation operation validate of the R1CS
shape, absent from src/; it confirms the arity identity
num_variables = num_inputs + num_aux and that every variable index
referenced in any constraint is below num_variables, reporting the
offending constraint and index otherwise.  It is a pure function. -/
def R1CS.validate (s : R1CS F) : Except ShapeError Unit :=
  if s.num_variables = s.num_inputs + s.num_aux then
    constraintsValidate s.num_variables 0 s.constraints
  else
    Except.error (ShapeError.ArityMismatch s.num_variables s.num_inputs s.num_aux)

/-- Every index referenced in a sparse linear combination is below n. -/
def lcInRange (n : Nat) (lc : List (Nat × F)) : Prop :=
  ∀ p ∈ lc, p.1 < n

/-- Every index referenced in any of a constraint's three linear
combinations is below n. -/
def constraintInRange (n : Nat) (c : Constraint F) : Prop :=
  lcInRange n c.1 ∧ lcInRange n c.2.1 ∧ lcInRange n c.2.2

/-- The variable index i is referenced somewhere in the constraint c. -/
def constraintMentions (i : Nat) (c : Constraint F) : Prop :=
  (∃ p ∈ c.1, p.1 = i) ∨ (∃ p ∈ c.2.1, p.1 = i) ∨ (∃ p ∈ c.2.2, p.1 = i)

/-- Modelled from the spec: the error kinds of circuit-instance assembly
(spec 4.4 and 7), which src/ does not contain. -/
inductive InstantiateError where
  | EngineComputeError : String → InstantiateError
  | WitnessLengthError : Nat → Nat → InstantiateError
deriving DecidableEq

/-- Modelled from the spec: the instance-assembly operation instantiate
(spec 4.4), absent from src/.  Without inputs it produces a shape-only
instance and never calls the engine; with inputs it runs the engine and,
only when config.sanity_check is set, verifies that the computed witness
has length shape.num_variables, failing with a witness-length error naming
expected versus actual length on mismatch. -/
def instantiate (config : CircomConfig F) (inputs : Option (List (CircomInput F))) :
    Except InstantiateError (CircomCircuit F) :=
  match inputs with
  | none => Except.ok { r1cs := config.r1cs, witness := none }
  | some ins =>
    match (config.wtns.compute ins).1 with
    | Except.error e => Except.error (InstantiateError.EngineComputeError e)
    | Except.ok w =>
      if config.sanity_check then
        if w.length = config.r1cs.num_variables then
          Except.ok { r1cs := config.r1cs, witness := some w }
        else
          Except.error (InstantiateError.WitnessLengthError config.r1cs.num_variables w.length)
      else
        Except.ok { r1cs := config.r1cs, witness := some w }

/-- Modelled from the spec: the serialized interchange form of a named
input, a record of the input's name and the encodings of its field
elements; the field-element encoding itself is delegated to the
field-arithmetic collaborator, so the encoding target is abstract. -/
def CircomInput.serialize {τ : Type} (encF : F → τ) (c : CircomInput F) :
    String × List τ :=
  (c.name, c.value.map encF)

/-- Modelled from the spec: decoding a sequence of field-element encodings,
failing when any single element fails to decode. -/
def decodeAll {τ : Type} (decF : τ → Option F) : List τ → Option (List F)
  | [] => some []
  | t :: ts =>
    match decF t with
    | some v =>
      match decodeAll decF ts with
      | some vs => some (v :: vs)
      | none => none
    | none => none

/-- Modelled from the spec: deserialization of a named input from its
interchange form, absent from src/ (the source derives it). -/
def CircomInput.deserialize {τ : Type} (decF : τ → Option F) (s : String × List τ) :
    Option (CircomInput F) :=
  match decodeAll decF s.2 with
  | some vs => some { name := s.1, value := vs }
  | none => none

/-- Modelled from the spec: the operations available on a constructed
configuration over its lifetime; the owner may flip sanity_check at any
time, and witness computations run through the engine handle, advancing
only the engine's internal execution state. -/
inductive ConfigOp (F : Type) where
  | setSanityCheck : Bool → ConfigOp F
  | runCompute : List (CircomInput F) → ConfigOp F

/-- Modelled from the spec: the effect of one lifetime operation on the
configuration. -/
def applyOp (cfg : CircomConfig F) : ConfigOp F → CircomConfig F
  | ConfigOp.setSanityCheck b =>
    { r1cs := cfg.r1cs, wtns := cfg.wtns, sanity_check := b }
  | ConfigOp.runCompute ins =>
    { r1cs := cfg.r1cs, wtns := (cfg.wtns.compute ins).2, sanity_check := cfg.sanity_check }

/-- The configuration after a sequence of lifetime operations. -/
def applyOps (cfg : CircomConfig F) (ops : List (ConfigOp F)) : CircomConfig F :=
  ops.foldl applyOp cfg

/-- A concrete engine whose construction always fails, for witnesses. -/
def wcNewFail : Path → Except String (WitnessCalculator Nat) :=
  fun _ => Except.error "missing engine"

/-- A concrete witness calculator over Nat, for witnesses. -/
def wcSample : WitnessCalculator Nat :=
  { state := [], computeFun := fun _ => Except.ok [1, 3, 9, 27] }

/-- A concrete engine whose construction always succeeds, for witnesses. -/
def wcNewOk : Path → Except String (WitnessCalculator Nat) :=
  fun _ => Except.ok wcSample

/-- A concrete well-formed shape over Nat with four variables, one
constraint referencing indices 0, 1 and 2, for witnesses. -/
def sampleShape : R1CS Nat :=
  { num_pub_in := 1, num_pub_out := 0, num_inputs := 2, num_aux := 2,
    num_variables := 4, constraints := [([(0, 1)], [(1, 1)], [(2, 1)])] }

/-- A concrete shape violating the arity identity (5 variables declared but
2 inputs + 2 auxiliary), for witnesses. -/
def badShape : R1CS Nat :=
  { num_pub_in := 1, num_pub_out := 0, num_inputs := 2, num_aux := 2,
    num_variables := 5, constraints := [([(0, 1)], [(1, 1)], [(2, 1)])] }

/-- A shape loader returning a fixed shape, for witnesses. -/
def loadConst (s : R1CS Nat) : Path → Except String (R1CS Nat) :=
  fun _ => Except.ok s

/-- A shape loader that always fails, for witnesses. -/
def loadFail : Path → Except String (R1CS Nat) :=
  fun _ => Except.error "corrupt shape file"

/-- A concrete engine producing a deliberately truncated witness of length
two, for counterexamples. -/
def engineShort : WitnessCalculator Nat :=
  { state := [], computeFun := fun _ => Except.ok [7, 9] }

/-- A concrete configuration with sanity checking disabled whose engine
returns a truncated witness, for counterexamples. -/
def cfgNoCheck : CircomConfig Nat :=
  { r1cs := sampleShape, wtns := engineShort, sanity_check := false }

/-- A concrete configuration with sanity checking enabled and a
full-length-witness engine, for witnesses. -/
def cfgCheck : CircomConfig Nat :=
  { r1cs := sampleShape, wtns := wcSample, sanity_check := true }

/-- The circuit instance that instantiate assembles from cfgNoCheck: its
witness has length two although its shape declares four variables. -/
def shortCircuit : CircomCircuit Nat :=
  { r1cs := sampleShape, witness := some [7, 9] }

/-- C1: with both paths text-representable, an engine-construction failure
makes CircomConfig.new return a WitnessCalculatorInstantiationError that
carries the exact engine path string and the wrapped underlying cause; the
result is this same error for every shape loader whatsoever, so shape
loading is never attempted. -/
theorem new_engine_failure_fail_fast
    (wcNew : Path → Except String (WitnessCalculator F))
    (wtns r1cs : Path) (pw pr e : String)
    (hw : wtns.toStr = some pw) (hr : r1cs.toStr = some pr)
    (he : wcNew wtns = Except.error e) :
    ∀ load_r1cs : Path → Except String (R1CS F),
      CircomConfig.new wcNew load_r1cs wtns r1cs =
        Except.error (ConfigError.WitnessCalculatorInstantiationError pw e) := by
  intro load
  simp only [CircomConfig.new, hw, hr, he]

/-- Witness for C1 at concrete paths, a failing engine and a loader that
would succeed. -/
theorem new_engine_failure_fail_fast_witness :
    CircomConfig.new wcNewFail (loadConst sampleShape) ⟨some "eng.wasm"⟩ ⟨some "circ.r1cs"⟩ =
      Except.error (ConfigError.WitnessCalculatorInstantiationError "eng.wasm" "missing engine") :=
  new_engine_failure_fail_fast wcNewFail ⟨some "eng.wasm"⟩ ⟨some "circ.r1cs"⟩
    "eng.wasm" "circ.r1cs" "missing engine" rfl rfl rfl (loadConst sampleShape)

/-- C2: when both paths are text-representable, the engine handle builds
and the shape loads, CircomConfig.new succeeds with exactly the loaded
shape, the built engine handle and sanity_check set to false. -/
theorem new_success
    (wcNew : Path → Except String (WitnessCalculator F))
    (load_r1cs : Path → Except String (R1CS F))
    (wtns r1cs : Path) (pw pr : String) (w : WitnessCalculator F) (shape : R1CS F)
    (hw : wtns.toStr = some pw) (hr : r1cs.toStr = some pr)
    (he : wcNew wtns = Except.ok w) (hl : load_r1cs r1cs = Except.ok shape) :
    CircomConfig.new wcNew load_r1cs wtns r1cs =
      Except.ok { r1cs := shape, wtns := w, sanity_check := false } := by
  simp only [CircomConfig.new, hw, hr, he, hl]

/-- Witness for C2 at concrete paths, a succeeding engine and loader. -/
theorem new_success_witness :
    CircomConfig.new wcNewOk (loadConst sampleShape) ⟨some "eng.wasm"⟩ ⟨some "circ.r1cs"⟩ =
      Except.ok { r1cs := sampleShape, wtns := wcSample, sanity_check := false } :=
  new_success wcNewOk (loadConst sampleShape) ⟨some "eng.wasm"⟩ ⟨some "circ.r1cs"⟩
    "eng.wasm" "circ.r1cs" wcSample sampleShape rfl rfl rfl rfl

/-- C3: when both paths are text-representable, the engine handle builds
but the shape load fails, CircomConfig.new returns a LoadR1CSError that
carries the exact shape path string and the wrapped underlying cause, and
no configuration is produced. -/
theorem new_shape_load_failure
    (wcNew : Path → Except String (WitnessCalculator F))
    (load_r1cs : Path → Except String (R1CS F))
    (wtns r1cs : Path) (pw pr e : String) (w : WitnessCalculator F)
    (hw : wtns.toStr = some pw) (hr : r1cs.toStr = some pr)
    (he : wcNew wtns = Except.ok w) (hl : load_r1cs r1cs = Except.error e) :
    CircomConfig.new wcNew load_r1cs wtns r1cs =
      Except.error (ConfigError.LoadR1CSError pr e) := by
  simp only [CircomConfig.new, hw, hr, he, hl]

/-- Witness for C3 at concrete paths, a succeeding engine and a failing
loader. -/
theorem new_shape_load_failure_witness :
    CircomConfig.new wcNewOk loadFail ⟨some "eng.wasm"⟩ ⟨some "circ.r1cs"⟩ =
      Except.error (ConfigError.LoadR1CSError "circ.r1cs" "corrupt shape file") :=
  new_shape_load_failure wcNewOk loadFail ⟨some "eng.wasm"⟩ ⟨some "circ.r1cs"⟩
    "eng.wasm" "circ.r1cs" "corrupt shape file" wcSample rfl rfl rfl rfl

/-- C4 counterexample: a non-text-representable engine path and a
non-text-representable shape path produce the very same data-free
FilenameError value, so the error does not name which of the two arguments
was invalid.  In the second scenario the engine constructor fails, yet the
FilenameError still results, confirming the failure precedes any loading. -/
theorem new_filename_error_counterexample :
    CircomConfig.new wcNewFail (loadConst sampleShape) ⟨none⟩ ⟨some "circ.r1cs"⟩ =
      Except.error ConfigError.FilenameError ∧
    CircomConfig.new wcNewFail loadFail ⟨some "eng.wasm"⟩ ⟨none⟩ =
      Except.error ConfigError.FilenameError ∧
    CircomConfig.new wcNewFail (loadConst sampleShape) ⟨none⟩ ⟨some "circ.r1cs"⟩ =
      CircomConfig.new wcNewFail loadFail ⟨some "eng.wasm"⟩ ⟨none⟩ :=
  ⟨rfl, rfl, rfl⟩

/-- C4 amended: when either supplied path is not text-representable, the
call fails immediately with the FilenameError, before any engine or shape
loading is attempted (the result holds for every engine constructor and
every shape loader); the error carries no data, so it does not name which
of the two arguments was invalid. -/
theorem new_filename_error (wtns r1cs : Path)
    (h : wtns.toStr = none ∨ r1cs.toStr = none) :
    ∀ (wcNew : Path → Except String (WitnessCalculator F))
      (load_r1cs : Path → Except String (R1CS F)),
      CircomConfig.new wcNew load_r1cs wtns r1cs =
        Except.error ConfigError.FilenameError := by
  intro wcNew load
  rcases h with h | h
  · simp only [CircomConfig.new, h]
  · cases hwt : wtns.toStr with
    | none => simp only [CircomConfig.new, hwt]
    | some pw => simp only [CircomConfig.new, hwt, h]

/-- Witness for the amended C4 at a concrete non-text-representable shape
path and a failing engine constructor. -/
theorem new_filename_error_witness :
    CircomConfig.new wcNewFail (loadConst sampleShape) ⟨some "eng.wasm"⟩ ⟨none⟩ =
      Except.error ConfigError.FilenameError :=
  new_filename_error ⟨some "eng.wasm"⟩ ⟨none⟩ (Or.inr rfl) wcNewFail (loadConst sampleShape)

/-- C10: CircomConfig.new performs no validation of the loaded shape: for
every shape the parser hands back — the statement quantifies over all
shapes, with no well-formedness hypothesis — new stores it unmodified and
returns Ok, so a successful construction does not imply the shape
invariants hold. -/
theorem new_stores_shape_unvalidated
    (wcNew : Path → Except String (WitnessCalculator F))
    (wtns r1cs : Path) (pw pr : String) (w : WitnessCalculator F)
    (hw : wtns.toStr = some pw) (hr : r1cs.toStr = some pr)
    (he : wcNew wtns = Except.ok w) :
    ∀ shape : R1CS F,
      CircomConfig.new wcNew (fun _ => Except.ok shape) wtns r1cs =
        Except.ok { r1cs := shape, wtns := w, sanity_check := false } := by
  intro shape
  simp only [CircomConfig.new, hw, hr, he]

/-- Witness for C10 at a concrete shape that fails validation (its arity
identity is violated): construction still succeeds and stores it. -/
theorem new_stores_shape_unvalidated_witness :
    R1CS.validate badShape = Except.error (ShapeError.ArityMismatch 5 2 2) ∧
    CircomConfig.new wcNewOk (fun _ => Except.ok badShape) ⟨some "eng.wasm"⟩ ⟨some "circ.r1cs"⟩ =
      Except.ok { r1cs := badShape, wtns := wcSample, sanity_check := false } :=
  ⟨rfl, new_stores_shape_unvalidated wcNewOk ⟨some "eng.wasm"⟩ ⟨some "circ.r1cs"⟩
    "eng.wasm" "circ.r1cs" wcSample rfl rfl rfl badShape⟩

/-- The scan of a sparse linear combination finds nothing exactly when
every referenced index is in range. -/
theorem lcBad_eq_none_iff (n : Nat) (lc : List (Nat × F)) :
    lcBad n lc = none ↔ lcInRange n lc := by
  induction lc with
  | nil => simp [lcBad, lcInRange]
  | cons p rest ih =>
    simp only [lcBad]
    by_cases h : n ≤ p.1
    · rw [if_pos h]
      constructor
      · intro hc; exact absurd hc (by simp)
      · intro hall; exact absurd (hall p (by simp)) (by omega)
    · rw [if_neg h]
      rw [ih]
      unfold lcInRange
      constructor
      · intro hall q hq
        rcases List.mem_cons.mp hq with hq | hq
        · subst hq; omega
        · exact hall q hq
      · intro hall q hq
        exact hall q (List.mem_cons_of_mem p hq)

/-- When the scan of a sparse linear combination reports an index, that
index is referenced in the combination and is out of range. -/
theorem lcBad_eq_some (n : Nat) (lc : List (Nat × F)) (i : Nat)
    (h : lcBad n lc = some i) : (∃ p ∈ lc, p.1 = i) ∧ n ≤ i := by
  induction lc with
  | nil => simp [lcBad] at h
  | cons p rest ih =>
    simp only [lcBad] at h
    by_cases hc : n ≤ p.1
    · rw [if_pos hc] at h
      have hp := Option.some.inj h
      subst hp
      exact ⟨⟨p, by simp, rfl⟩, hc⟩
    · rw [if_neg hc] at h
      obtain ⟨⟨q, hq, hqi⟩, hni⟩ := ih h
      exact ⟨⟨q, List.mem_cons_of_mem p hq, hqi⟩, hni⟩

/-- The scan of a constraint finds nothing exactly when all three of its
linear combinations are in range. -/
theorem constraintBad_eq_none_iff (n : Nat) (c : Constraint F) :
    constraintBad n c = none ↔ constraintInRange n c := by
  unfold constraintBad constraintInRange
  cases h1 : lcBad n c.1 with
  | some i =>
    simp only []
    constructor
    · intro hc; exact absurd hc (by simp)
    · rintro ⟨hr, _, _⟩
      rw [(lcBad_eq_none_iff n c.1).mpr hr] at h1
      exact absurd h1 (by simp)
  | none =>
    cases h2 : lcBad n c.2.1 with
    | some i =>
      simp only []
      constructor
      · intro hc; exact absurd hc (by simp)
      · rintro ⟨_, hr, _⟩
        rw [(lcBad_eq_none_iff n c.2.1).mpr hr] at h2
        exact absurd h2 (by simp)
    | none =>
      simp only []
      rw [lcBad_eq_none_iff]
      constructor
      · intro h3
        exact ⟨(lcBad_eq_none_iff n c.1).mp h1, (lcBad_eq_none_iff n c.2.1).mp h2, h3⟩
      · rintro ⟨_, _, h3⟩
        exact h3

/-- When the scan of a constraint reports an index, that index is
referenced somewhere in the constraint and is out of range. -/
theorem constraintBad_eq_some (n : Nat) (c : Constraint F) (i : Nat)
    (h : constraintBad n c = some i) : constraintMentions i c ∧ n ≤ i := by
  unfold constraintBad at h
  cases h1 : lcBad n c.1 with
  | some j =>
    rw [h1] at h
    simp only [] at h
    have hj := Option.some.inj h
    obtain ⟨hm, hn⟩ := lcBad_eq_some n c.1 j h1
    rw [hj] at hm hn
    exact ⟨Or.inl hm, hn⟩
  | none =>
    rw [h1] at h
    simp only [] at h
    cases h2 : lcBad n c.2.1 with
    | some j =>
      rw [h2] at h
      simp only [] at h
      have hj := Option.some.inj h
      obtain ⟨hm, hn⟩ := lcBad_eq_some n c.2.1 j h2
      rw [hj] at hm hn
      exact ⟨Or.inr (Or.inl hm), hn⟩
    | none =>
      rw [h2] at h
      simp only [] at h
      obtain ⟨hm, hn⟩ := lcBad_eq_some n c.2.2 i h
      exact ⟨Or.inr (Or.inr hm), hn⟩

/-- The constraint walk succeeds exactly when every constraint in the list
is in range, for any starting position. -/
theorem constraintsValidate_ok_iff (n k : Nat) (cs : List (Constraint F)) :
    constraintsValidate n k cs = Except.ok () ↔ ∀ c ∈ cs, constraintInRange n c := by
  induction cs generalizing k with
  | nil => simp [constraintsValidate]
  | cons c rest ih =>
    cases hc : constraintBad n c with
    | some i =>
      simp only [constraintsValidate, hc]
      constructor
      · intro h; exact absurd h (by simp)
      · intro hall
        have hn := (constraintBad_eq_none_iff n c).mpr (hall c (by simp))
        rw [hn] at hc
        exact absurd hc (by simp)
    | none =>
      simp only [constraintsValidate, hc]
      rw [ih (k + 1)]
      constructor
      · intro hall q hq
        rcases List.mem_cons.mp hq with hq | hq
        · subst hq; exact (constraintBad_eq_none_iff n q).mp hc
        · exact hall q hq
      · intro hall q hq
        exact hall q (List.mem_cons_of_mem c hq)

/-- When the constraint walk fails, the reported position points (relative
to the starting position) at a constraint of the list that references the
reported index, and that index is out of range. -/
theorem constraintsValidate_error (n k : Nat) (cs : List (Constraint F)) (ci vi : Nat)
    (h : constraintsValidate n k cs = Except.error (ShapeError.IndexOutOfBounds ci vi)) :
    ∃ j c, cs.get? j = some c ∧ ci = k + j ∧ constraintMentions vi c ∧ n ≤ vi := by
  induction cs generalizing k with
  | nil => simp [constraintsValidate] at h
  | cons c rest ih =>
    cases hc : constraintBad n c with
    | some i =>
      simp only [constraintsValidate, hc] at h
      have h2 := Except.error.inj h
      injection h2 with hk hi
      obtain ⟨hm, hn⟩ := constraintBad_eq_some n c i hc
      refine ⟨0, c, rfl, by omega, ?_, ?_⟩
      · rw [← hi]; exact hm
      · omega
    | none =>
      simp only [constraintsValidate, hc] at h
      obtain ⟨j, c2, hg, hci, hm, hn⟩ := ih (k + 1) h
      exact ⟨j + 1, c2, by simpa using hg, by omega, hm, hn⟩

/-- C7: the shape validation operation returns Ok exactly when every
variable index referenced in any of the three linear combinations of any
constraint is below num_variables and num_variables equals
num_inputs + num_aux; when it fails on an index it reports which
constraint and which index violated the bound.  It is a pure function of
the shape, so it has no side effects. -/
theorem validate_spec (s : R1CS F) :
    (s.validate = Except.ok () ↔
      s.num_variables = s.num_inputs + s.num_aux ∧
        ∀ c ∈ s.constraints, constraintInRange s.num_variables c) ∧
    (∀ ci vi, s.validate = Except.error (ShapeError.IndexOutOfBounds ci vi) →
      ∃ c, s.constraints.get? ci = some c ∧ constraintMentions vi c ∧
        s.num_variables ≤ vi) := by
  constructor
  · unfold R1CS.validate
    by_cases h : s.num_variables = s.num_inputs + s.num_aux
    · rw [if_pos h, constraintsValidate_ok_iff]
      constructor
      · intro hall; exact ⟨h, hall⟩
      · rintro ⟨_, hall⟩; exact hall
    · rw [if_neg h]
      constructor
      · intro hc; exact absurd hc (by simp)
      · rintro ⟨hh, _⟩; exact absurd hh h
  · intro ci vi hv
    unfold R1CS.validate at hv
    by_cases ha : s.num_variables = s.num_inputs + s.num_aux
    · rw [if_pos ha] at hv
      obtain ⟨j, c, hg, hci, hm, hn⟩ := constraintsValidate_error s.num_variables 0 s.constraints ci vi hv
      have hj : ci = j := by omega
      subst hj
      exact ⟨c, hg, hm, hn⟩
    · rw [if_neg ha] at hv
      have h2 := Except.error.inj hv
      exact absurd h2 (by simp)

/-- Witness for C7 at the concrete well-formed sample shape: validation
succeeds via the characterization. -/
theorem validate_spec_witness :
    R1CS.validate sampleShape = Except.ok () :=
  ((validate_spec sampleShape).1).mpr
    ⟨rfl, by simp [sampleShape, constraintInRange, lcInRange]⟩

/-- C6 counterexample: the instance that instantiate assembles from a
configuration with sanity checking disabled and an engine returning a
truncated result has a present witness whose length (two) differs from
the shape's num_variables (four), so the witness-length invariant does
not hold for every constructible instance. -/
theorem circuit_witness_length_counterexample :
    instantiate cfgNoCheck (some [CircomInput.new "in1" [7]]) = Except.ok shortCircuit ∧
    shortCircuit.witness = some [7, 9] ∧
    ¬ List.length [7, 9] = shortCircuit.r1cs.num_variables :=
  ⟨rfl, rfl, by decide⟩

/-- C6 amended: when an instance is assembled by instantiate from a
configuration whose sanity_check flag is enabled, a present witness has
length equal to the shape's num_variables; with the flag disabled a
mismatched length can slip through. -/
theorem instantiate_witness_length (config : CircomConfig F)
    (ins : List (CircomInput F)) (inst : CircomCircuit F) (w : List F)
    (hs : config.sanity_check = true)
    (hi : instantiate config (some ins) = Except.ok inst)
    (hw : inst.witness = some w) :
    w.length = inst.r1cs.num_variables := by
  simp only [instantiate] at hi
  cases hc : (config.wtns.compute ins).1 with
  | error e =>
    rw [hc] at hi
    simp only [] at hi
    exact absurd hi (by simp)
  | ok w2 =>
    rw [hc] at hi
    simp only [] at hi
    simp only [hs, if_true] at hi
    by_cases hl : w2.length = config.r1cs.num_variables
    · rw [if_pos hl] at hi
      have h2 := Except.ok.inj hi
      subst h2
      have h3 := Option.some.inj hw
      subst h3
      exact hl
    · rw [if_neg hl] at hi
      exact absurd hi (by simp)

/-- Witness for the amended C6 at the concrete checking configuration. -/
theorem instantiate_witness_length_witness :
    List.length [1, 3, 9, 27] = sampleShape.num_variables :=
  instantiate_witness_length cfgCheck [CircomInput.new "in1" [7]]
    { r1cs := sampleShape, witness := some [1, 3, 9, 27] } [1, 3, 9, 27] rfl rfl rfl

/-- Decoding the element-wise encoding of a list recovers the list, for
any decoder that inverts the encoder. -/
theorem decodeAll_map_encode {τ : Type} (encF : F → τ) (decF : τ → Option F)
    (h : ∀ x, decF (encF x) = some x) (l : List F) :
    decodeAll decF (l.map encF) = some l := by
  induction l with
  | nil => simp [decodeAll]
  | cons x xs ih => simp [decodeAll, h, ih]

/-- C8: serializing a named input and deserializing the result yields an
input with the original name and value vector, for every field-element
decoder that inverts the encoder. -/
theorem circominput_round_trip {τ : Type} (encF : F → τ) (decF : τ → Option F)
    (h : ∀ x, decF (encF x) = some x) (c : CircomInput F) :
    CircomInput.deserialize decF (CircomInput.serialize encF c) = some c := by
  unfold CircomInput.deserialize CircomInput.serialize
  simp only [decodeAll_map_encode encF decF h]

/-- Witness for C8 at a concrete named input over Nat with the identity
encoding. -/
theorem circominput_round_trip_witness :
    CircomInput.deserialize (fun t => some t)
        (CircomInput.serialize (fun x => x) (CircomInput.new "in1" ([7, 11] : List Nat))) =
      some (CircomInput.new "in1" [7, 11]) :=
  circominput_round_trip (fun x => x) (fun t => some t) (fun _ => rfl)
    (CircomInput.new "in1" [7, 11])

/-- C9: after construction the shape held by a configuration is never
mutated: every sequence of lifetime operations — flipping the
sanity_check flag, running witness computations — leaves the r1cs field,
hence all four arity counts, num_variables and the constraint sequence,
exactly as constructed. -/
theorem config_shape_immutable (cfg : CircomConfig F) (ops : List (ConfigOp F)) :
    (applyOps cfg ops).r1cs = cfg.r1cs := by
  induction ops generalizing cfg with
  | nil => rfl
  | cons op rest ih =>
    have h1 : (applyOp cfg op).r1cs = cfg.r1cs := by
      cases op with
      | setSanityCheck b => rfl
      | runCompute ins => rfl
    calc (applyOps cfg (op :: rest)).r1cs
        = (applyOps (applyOp cfg op) rest).r1cs := rfl
      _ = (applyOp cfg op).r1cs := ih (applyOp cfg op)
      _ = cfg.r1cs := h1

end CircomScotia
